import Mathlib

/-!
Shallow embedding of the yts-scraper repository core:
`yts_scraper/scraper.py` (scrape-and-dedupe pipeline),
`.github/scripts/upload_to_real_debrid.py` (adaptive upload orchestrator),
`real_debrid_smart_uploader.py` (ordering of descriptors), and
`real_debrid_cached_uploader.py` (cache-aware uploader).

Python strings are modelled as Lean `String`s; Python's lexicographic
string comparison, `str.endswith`, `str.lower` and single-character
`str.replace` are re-implemented over the underlying character lists so
that all definitions evaluate inside the kernel.  Python `None` is
modelled with `Option`, Python dicts with association lists, the local
filesystem with explicit lists of written paths, and `sys.exit` /
blocking prompts with an `Option` result (`none` = the process exits).
-/

namespace YtsModel

/-- Python lexicographic string comparison (`<` on `str`), by code point. -/
def pyLtChars : List Char → List Char → Bool
  | [], [] => false
  | [], _ :: _ => true
  | _ :: _, [] => false
  | a :: as, b :: bs => if a = b then pyLtChars as bs else decide (a.toNat < b.toNat)

/-- Python `a < b` on strings. -/
def pyStrLt (a b : String) : Bool :=
  pyLtChars a.data b.data

/-- Python `s.endswith(suffix)`. -/
def pyEndsWith (s suffix : String) : Bool :=
  suffix.data.isSuffixOf s.data

/-- Python `s.lower()` (ASCII case folding suffices for the data involved). -/
def pyToLower (s : String) : String :=
  ⟨s.data.map Char.toLower⟩

/-- Python `range(a, b)` as the list `[a, a+1, ..., b-1]` (empty when `b ≤ a`). -/
def pythonRange (a b : Nat) : List Nat :=
  List.range' a (b - a)

/-- Python truthiness of an optional string (`None` and `''` are falsy). -/
def pyTruthy : Option String → Bool
  | none => false
  | some s => !(s = "")

/-! ## PersistentCache (`Scraper._load_cache`, `Scraper._cache_movie`,
`Scraper._is_movie_cached` in `yts_scraper/scraper.py`) -/

/-- One value of the cache dict: `{name, year, qualities, first_seen, last_seen}`.
`first_seen`/`last_seen` are `Option` because a cache file read from disk may
lack them (`data.get('last_seen', ...)` in the source).  A missing `qualities`
key is modelled as the empty list. -/
structure CacheEntry where
  name : String
  year : Option Int
  qualities : List String
  first_seen : Option String
  last_seen : Option String
  deriving Repr, DecidableEq

/-- The in-memory cache: a Python dict keyed by movie id (keys unique). -/
abbrev Cache := List (String × CacheEntry)

/-- Dict lookup `cache[movie_id]` / `movie_id in cache`. -/
def lookupE : Cache → String → Option CacheEntry
  | [], _ => none
  | (k, e) :: rest, mid => if k = mid then some e else lookupE rest mid

/-- Dict assignment `cache[movie_id] = entry` (replace if present, else append). -/
def setE : Cache → String → CacheEntry → Cache
  | [], mid, e => [(mid, e)]
  | (k, e0) :: rest, mid, e =>
    if k = mid then (mid, e) :: rest else (k, e0) :: setE rest mid e

/-- `Scraper._cache_movie(movie_id, movie_name, year, quality)`: create the
entry if absent (with empty quality list and both timestamps set to now),
bump `last_seen`, then append `quality` if it is not already present.
`now` stands for `datetime.now().isoformat()`. -/
def cacheMovie (c : Cache) (mid movieName : String) (year : Option Int)
    (quality now : String) : Cache :=
  let e0 : CacheEntry := match lookupE c mid with
    | none =>
        { name := movieName, year := year, qualities := [],
          first_seen := some now, last_seen := some now }
    | some e => e
  let e1 := { e0 with last_seen := some now }
  let e2 :=
    if quality ∈ e1.qualities then e1
    else { e1 with qualities := e1.qualities ++ [quality] }
  setE c mid e2

/-- `Scraper._is_movie_cached`: true iff the id is present and the given
quality is already in its quality list. -/
def isMovieCached (c : Cache) (mid quality : String) : Bool :=
  match lookupE c mid with
  | none => false
  | some e => quality ∈ e.qualities

/-- `Scraper._load_cache`.  The read-and-parse of the cache file is modelled
as an `Except`: `.error` covers a missing, unreadable or unparsable file
(every path that raises inside the `try`, including `os.path.exists` being
false).  `cutoffDate` stands for `(datetime.now() - timedelta(days=30)).isoformat()`.
On success the source keeps exactly the entries with
`data.get('last_seen', '1900-01-01') > cutoff_date` (Python string order). -/
def loadCache (readResult : Except String Cache) (cutoffDate : String) : Cache :=
  match readResult with
  | .error _ => []
  | .ok m => m.filter (fun p => pyStrLt cutoffDate (p.2.last_seen.getD "1900-01-01"))

/-! ## Pagination (`Scraper.__initialize_download` in `yts_scraper/scraper.py`) -/

/-- The YTS API page size (`self.limit = 50`). -/
def apiLimit : Nat := 50

/-- The page-count computation: `math.trunc(movie_count / limit) + 1`,
replaced by `2` when that value equals `1`. -/
def pageCount (movieCount : Nat) : Nat :=
  if movieCount / apiLimit + 1 = 1 then 2
  else movieCount / apiLimit + 1

/-- `range_ = range(int(self.page_arg), page_count)`: the pages the download
loop iterates over. -/
def downloadPages (pageArg movieCount : Nat) : List Nat :=
  pythonRange pageArg (pageCount movieCount)

/-- `__initialize_download` computes the page range, then exits the process
(`sys.exit(0)`) when `movie_count <= 0` before fetching anything; otherwise
the loop fetches exactly the pages of the range, in order. -/
def initializePages (pageArg movieCount : Nat) : Option (List Nat) :=
  if movieCount = 0 then none else some (downloadPages pageArg movieCount)

/-! ## Scrape pipeline (`Scraper.__filter_torrents`, `Scraper.__build_path`,
`Scraper.__save_magnet_info`, `Scraper.__log_csv`,
`Scraper.__prompt_existing_files` in `yts_scraper/scraper.py`) -/

/-- The characters removed from `title_long` by
`translate({ord(i): None for i in "'/\:*?<>|"})` (the backslash in the Python
literal is a literal backslash; `\:` is not an escape). -/
def illegalChars : List Char := ['\'', '/', '\\', ':', '*', '?', '<', '>', '|']

/-- Removal of the illegal filesystem characters from the display name. -/
def sanitizeName (s : String) : String :=
  ⟨s.data.filter (fun c => !(decide (c ∈ illegalChars)))⟩

/-- POSIX `os.path.join(a, b)` for the shapes the scraper produces. -/
def pyJoin (a b : String) : String :=
  if b.data.head? = some '/' then b
  else if a = "" ∨ a.data.getLast? = some '/' then a ++ b
  else a ++ "/" ++ b

/-- Python `name.replace(' ', '+')` (single-character replacement). -/
def plusSpaces (s : String) : String :=
  ⟨s.data.map (fun c => if c = ' ' then '+' else c)⟩

/-- The magnet URI built in `__save_magnet_info` from the info-hash, the
display name and the fixed tracker list. -/
def magnetLinkOf (torrentHash movieName : String) : String :=
  "magnet:?xt=urn:btih:" ++ torrentHash ++ "&dn=" ++ plusSpaces movieName ++
  "&tr=udp://open.demonii.com:1337&tr=udp://tracker.openbittorrent.com:80" ++
  "&tr=udp://tracker.coppersurfer.tk:6969&tr=udp://glotorrents.pw:6969/announce" ++
  "&tr=udp://tracker.opentrackr.org:1337/announce&tr=udp://torrent.gresille.org:80/announce" ++
  "&tr=udp://p4p.arenabg.com:1337&tr=udp://tracker.leechers-paradise.org:6969"

/-- The scraper configuration fields read by the pipeline (`self.*` set in the
constructor).  `promptAnswer` models the blocking `input()` of the interactive
prompt; `now` models the ambient clock `datetime.now().isoformat()`. -/
structure ScrapeConfig where
  quality : String
  categorize : Option String
  yearLimit : Int
  imdbFlag : Bool
  csvOnly : Bool
  poster : Bool
  directory : String
  autoContinue : Bool
  promptAnswer : String
  now : String
  deriving Repr

/-- One torrent variant of a listing (`movie['torrents'][i]`). -/
structure Torrent where
  quality : String
  url : String
  hash : String
  deriving Repr, DecidableEq

/-- The fields of a listing consumed by `__filter_torrents`.  `rating` is
only passed through to the CSV, so it is kept opaque as a string. -/
structure Movie where
  id : String
  rating : String
  genres : Option (List String)
  title : String
  titleLong : String
  imdbCode : String
  year : Int
  language : String
  url : String
  torrents : Option (List Torrent)
  deriving Repr

/-- The structured record written to a `.magnet` descriptor file. -/
structure MagnetInfo where
  magnetLink : String
  hash : String
  movieName : String
  year : Option Int
  quality : Option String
  imdbId : Option String
  movieId : String
  createdAt : String
  deriving Repr, DecidableEq

/-- One CSV row appended by `__log_csv`. -/
structure CsvRow where
  ytsId : String
  imdbId : String
  title : String
  year : Int
  language : String
  rating : String
  quality : String
  ytsUrl : String
  imdbUrl : String
  torrentUrl : String
  deriving Repr, DecidableEq

/-- The mutable per-run scraper state touched by the pipeline: the descriptor
files written (path with contents), poster side-files, CSV rows, the
persistent cache, the in-run dedup id list, and the existing-file
prompt counters. -/
structure ScrapeState where
  files : List (String × MagnetInfo)
  posterFiles : List String
  csvRows : List CsvRow
  cache : Cache
  downloadedIds : List String
  existingCounter : Nat
  skipExit : Bool

/-- File-existence check `os.path.isfile` against the written-files list. -/
def fileExists (fs : List (String × MagnetInfo)) (p : String) : Bool :=
  fs.any (fun q => q.1 = p)

/-- `Scraper.__prompt_existing_files`.  Returns `none` when the process exits
(interactive answer `n`); otherwise the updated state.  An unrecognized
answer leaves the state unchanged (the source just prints and returns). -/
def promptExistingFiles (cfg : ScrapeConfig) (st : ScrapeState) : Option ScrapeState :=
  if cfg.autoContinue then some { st with existingCounter := 0, skipExit := true }
  else if pyToLower cfg.promptAnswer = "n" then none
  else if pyToLower cfg.promptAnswer = "y" then
    some { st with existingCounter := 0, skipExit := true }
  else some st

/-- Cache update guarded by `if quality:` (Python truthiness) as done at both
cache sites of `__save_magnet_info`. -/
def cacheIfQuality (cfg : ScrapeConfig) (st : ScrapeState) (movieId movieName : String)
    (year : Option Int) (quality : Option String) : ScrapeState :=
  match quality with
  | some q =>
      if q = "" then st
      else { st with cache := cacheMovie st.cache movieId movieName year q cfg.now }
  | none => st

/-- The part of `__save_magnet_info` that runs after the existing-file
prompt gate: existence check, magnet-record write, poster side-file,
dedup-id append and cache update. -/
def saveMagnetCore (cfg : ScrapeConfig) (st : ScrapeState) (torrentHash : String)
    (posterImg : Option String) (path : Option String) (movieName movieId : String)
    (quality : Option String) (imdbId : Option String) (year : Option Int) :
    Option Bool × ScrapeState :=
  let magnetPath := path.getD "" ++ ".magnet"
  if fileExists st.files magnetPath then
    let st1 := { st with existingCounter := st.existingCounter + 1 }
    let st2 := cacheIfQuality cfg st1 movieId movieName year quality
    (some false, st2)
  else
    let info : MagnetInfo :=
      { magnetLink := magnetLinkOf torrentHash movieName,
        hash := torrentHash, movieName := movieName, year := year,
        quality := quality, imdbId := imdbId, movieId := movieId,
        createdAt := cfg.now }
    let st1 := { st with files := st.files ++ [(magnetPath, info)] }
    let st2 :=
      if cfg.poster ∧ posterImg.isSome then
        { st1 with posterFiles := st1.posterFiles ++ [path.getD "" ++ ".jpg"] }
      else st1
    let st3 := { st2 with downloadedIds := st2.downloadedIds ++ [movieId] }
    let st4 := cacheIfQuality cfg st3 movieId movieName year quality
    let st5 := { st4 with existingCounter := 0 }
    (some true, st5)

/-- `Scraper.__save_magnet_info`.  The outer `Option` is `none` when the
process exits inside the prompt; the inner `Option Bool` is the Python return
value (`None` in csv-only mode, else `False`/`True`).  `posterImg` is the
poster bytes fetched by the caller (or `none`).  Python would crash on a
`None` path past the csv-only guard; that branch is unreachable from the
pipeline, and `path.getD ""` stands in for it. -/
def saveMagnetInfo (cfg : ScrapeConfig) (st : ScrapeState) (torrentHash : String)
    (posterImg : Option String) (path : Option String) (movieName movieId : String)
    (quality : Option String) (imdbId : Option String) (year : Option Int) :
    Option (Option Bool × ScrapeState) :=
  if cfg.csvOnly then some (none, st)
  else
    let st? : Option ScrapeState :=
      if st.existingCounter > 10 ∧ st.skipExit = false then promptExistingFiles cfg st
      else some st
    match st? with
    | none => none
    | some st1 =>
      some (saveMagnetCore cfg st1 torrentHash posterImg path movieName movieId
        quality imdbId year)

/-- `Scraper.__build_path`.  Returns `none` in csv-only mode.  The
`movieGenre` and `rating` parameters are accepted but unused, as in the
source.  The `os.makedirs` side effect creates directories only and is not
tracked. -/
def buildPath (cfg : ScrapeConfig) (movieName rating quality : String)
    (movieGenre : Option String) (imdbId : String) (year : Int) : Option String :=
  if cfg.csvOnly then none
  else
    let directory := cfg.directory ++ "/" ++ movieName ++ " (" ++ toString year ++ ")"
    let filename :=
      if cfg.imdbFlag then movieName ++ "." ++ quality ++ "-" ++ imdbId
      else movieName ++ "." ++ quality
    some (pyJoin directory filename)

/-- `Scraper.__log_csv`: appends one row (header handling is presentation
only and not modelled). -/
def logCsv (st : ScrapeState) (m : Movie) (t : Torrent) : ScrapeState :=
  { st with csvRows := st.csvRows ++
      [{ ytsId := m.id, imdbId := m.imdbCode, title := m.title, year := m.year,
         language := m.language, rating := m.rating, quality := t.quality,
         ytsUrl := m.url,
         imdbUrl := "https://www.imdb.com/title/" ++ m.imdbCode,
         torrentUrl := t.url }] }

/-- `movie_genres = movie.get('genres') if movie.get('genres') else ['None']`
(both a missing and an empty genre list default to the sentinel). -/
def genresOf (m : Movie) : List String :=
  match m.genres with
  | some (g :: gs) => g :: gs
  | _ => ["None"]

/-- `if self.categorize and self.categorize != 'rating'`. -/
def categorizeOn (cfg : ScrapeConfig) : Bool :=
  pyTruthy cfg.categorize && !(cfg.categorize = some "rating")

/-- The inner `for genre in movie_genres` loop of `__filter_torrents`:
build a path and save once per genre (the genre does not influence the
path).  Propagates a process exit as `none`. -/
def processGenres (cfg : ScrapeConfig) (m : Movie) (movieName : String)
    (t : Torrent) (posterImg : Option String) :
    List String → ScrapeState → Option ScrapeState
  | [], st => some st
  | g :: gs, st =>
    let path := buildPath cfg movieName m.rating t.quality (some g) m.imdbCode m.year
    match saveMagnetInfo cfg st t.hash posterImg path movieName m.id
        (some t.quality) (some m.imdbCode) (some m.year) with
    | none => none
    | some (_, st') => processGenres cfg m movieName t posterImg gs st'

/-- One iteration of the `for torrent in torrents` loop of
`__filter_torrents`: cache check, then the categorize / csv+save branches.
The `is_processing_successful` flag only drives the progress bar and is not
tracked. -/
def processTorrent (cfg : ScrapeConfig) (m : Movie) (movieName : String)
    (posterImg : Option String) (t : Torrent) (st : ScrapeState) :
    Option ScrapeState :=
  if isMovieCached st.cache m.id t.quality then some st
  else if categorizeOn cfg then
    if cfg.quality = "all" ∨ cfg.quality = t.quality then
      processGenres cfg m movieName t posterImg (genresOf m) st
    else some st
  else
    if cfg.quality = "all" ∨ cfg.quality = t.quality then
      let st := logCsv st m t
      let path := buildPath cfg movieName m.rating t.quality none m.imdbCode m.year
      match saveMagnetInfo cfg st t.hash posterImg path movieName m.id
          (some t.quality) (some m.imdbCode) (some m.year) with
      | none => none
      | some (_, st') => some st'
    else some st

/-- The torrent loop. -/
def processTorrents (cfg : ScrapeConfig) (m : Movie) (movieName : String)
    (posterImg : Option String) : List Torrent → ScrapeState → Option ScrapeState
  | [], st => some st
  | t :: ts, st =>
    match processTorrent cfg m movieName posterImg t st with
    | none => none
    | some st' => processTorrents cfg m movieName posterImg ts st'

/-- `Scraper.__filter_torrents`: year floor, in-run dedup, missing-torrents
guard, then the torrent loop.  `posterData` is what `requests.get(...)` would
return for the cover image; it is only fetched when `self.poster` is set. -/
def filterTorrents (cfg : ScrapeConfig) (m : Movie) (posterData : Option String)
    (st : ScrapeState) : Option ScrapeState :=
  if m.year < cfg.yearLimit then some st
  else
    let movieName := sanitizeName m.titleLong
    if m.id ∈ st.downloadedIds then some st
    else
      match m.torrents with
      | none => some st
      | some ts =>
        let posterImg := if cfg.poster then posterData else none
        processTorrents cfg m movieName posterImg ts st

/-! ## Adaptive upload orchestrator
(`.github/scripts/upload_to_real_debrid.py`) -/

/-- `RealDebridUploader.backoff_delay` (seconds). -/
def backoffDelay : Nat := 60

/-- `RealDebridUploader.max_retries`. -/
def uploaderMaxRetries : Nat := 3

/-- `RealDebridUploader._handle_rate_limit_error`: increments the
consecutive-rate-limit counter, then waits `backoff_delay * 2 **
min(consecutive_rate_limits - 1, 3)` seconds for error code 34 and
`backoff_delay * 2` for error code 21.  Returns the new counter and the
wait (0 seconds for any other code, which the source never passes). -/
def handleRateLimitError (consec : Nat) (errorCode : Nat) : Nat × Nat :=
  let c := consec + 1
  if errorCode = 34 then (c, backoffDelay * 2 ^ min (c - 1) 3)
  else if errorCode = 21 then (c, backoffDelay * 2)
  else (c, 0)

/-- The observable outcome of one `POST /torrents/addMagnet` attempt:
HTTP 201 with an id, a non-201 response whose body parses to an error
with optional `error_code` (`none` when the body is not JSON), or a
transport-level exception. -/
inductive AttemptOutcome where
  | created (tid : String)
  | apiError (code : Option Nat)
  | netError
  deriving Repr, DecidableEq

/-- Result of `RealDebridUploader.upload_magnet_link`: `{'success': True, 'id': ...}`
or `{'success': False, ...}` whose `error_code` key may be absent (`none`). -/
inductive UploadResult where
  | ok (tid : String)
  | failed (code : Option Nat)
  deriving Repr, DecidableEq

/-- The retry loop of `upload_magnet_link`.  `script` gives the outcome of
each attempt (attempt index → outcome); `remaining` counts attempts left
(`max_retries - attempt`); `consec` is `self.consecutive_rate_limits`.
A 201 resets the counter and returns success; an error with code 34/21 goes
through `_handle_rate_limit_error` (incrementing the counter) and retries
unless it was the last attempt; any other error returns immediately; an
exception retries (after `retry_delay`) unless it was the last attempt. -/
def uploadGo (script : Nat → AttemptOutcome) :
    Nat → Nat → Nat → UploadResult × Nat
  | _, 0, consec => (.failed none, consec)
  | attempt, remaining + 1, consec =>
    match script attempt with
    | .created tid => (.ok tid, 0)
    | .apiError code =>
      if code = some 34 ∨ code = some 21 then
        let hc := handleRateLimitError consec (code.getD 0)
        if remaining > 0 then uploadGo script (attempt + 1) remaining hc.1
        else (.failed code, hc.1)
      else (.failed code, consec)
    | .netError =>
      if remaining > 0 then uploadGo script (attempt + 1) remaining consec
      else (.failed none, consec)

/-- `RealDebridUploader.upload_magnet_link` on a given attempt script,
threading the consecutive-rate-limit counter. -/
def uploadMagnetLink (consec : Nat) (script : Nat → AttemptOutcome) :
    UploadResult × Nat :=
  uploadGo script 0 uploaderMaxRetries consec

/-- One queued `.magnet` file as the orchestrator's `main` sees it:
its filesystem modification time, and either `none` when
`load_magnet_info` fails or the file has no `magnet_link` (the item is
counted failed and never uploaded), or the attempt script of its upload. -/
structure Descriptor where
  mtime : Nat
  load : Option (Nat → AttemptOutcome)

/-- Record of one call to `upload_magnet_link` during a run: the queue
index of the descriptor, its mtime, and the consecutive-rate-limit counter
before and after the call, with the call's result. -/
structure AttemptRecord where
  idx : Nat
  mtime : Nat
  consecBefore : Nat
  result : UploadResult
  consecAfter : Nat

/-- Aggregate outcome of a run of `main`'s upload loop. -/
structure RunOutcome where
  consec : Nat
  successes : Nat
  failures : Nat
  skipped : Nat
  attempts : List AttemptRecord

/-- The upload loop of `main` in `.github/scripts/upload_to_real_debrid.py`:
per descriptor, a failed load counts as failed; otherwise the magnet is
uploaded.  On success counters advance; on failure, if the result's error
code is 21 or 34 and `consecutive_rate_limits >= 3`, the remaining queue is
recorded as skipped and the loop breaks; otherwise it counts failed and
continues.  (The active-download pause only sleeps and is not modelled.) -/
def runGo : List Descriptor → Nat → RunOutcome → RunOutcome
  | [], _, out => out
  | d :: rest, i, out =>
    match d.load with
    | none => runGo rest (i + 1) { out with failures := out.failures + 1 }
    | some script =>
      let r := uploadMagnetLink out.consec script
      let arec : AttemptRecord :=
        { idx := i, mtime := d.mtime, consecBefore := out.consec,
          result := r.1, consecAfter := r.2 }
      let out' := { out with consec := r.2, attempts := out.attempts ++ [arec] }
      match r.1 with
      | .ok _ => runGo rest (i + 1) { out' with successes := out'.successes + 1 }
      | .failed code =>
        if (code = some 21 ∨ code = some 34) ∧ 3 ≤ r.2 then
          { out' with skipped := rest.length }
        else runGo rest (i + 1) { out' with failures := out'.failures + 1 }

/-- A full adaptive-orchestrator run over an already-ordered queue. -/
def runAdaptive (descs : List Descriptor) : RunOutcome :=
  runGo descs 0 { consec := 0, successes := 0, failures := 0, skipped := 0, attempts := [] }

/-- The sort key comparison realizing
`magnet_files.sort(key=lambda x: os.path.getmtime(x), reverse=True)`:
descriptor `a` may precede `b` when `b`'s mtime is no newer. -/
def mtimeGe (a b : Descriptor) : Bool :=
  decide (b.mtime ≤ a.mtime)

/-- The queue the orchestrator iterates: sorted newest-first by mtime
(stable, as Python's sort), truncated to `max_uploads_per_run` when longer.
The same sort-then-truncate appears in `.github/scripts/upload_to_real_debrid.py`
and in `real_debrid_smart_uploader.py`. -/
def uploadOrder (files : List Descriptor) (cap : Nat) : List Descriptor :=
  if cap < (files.mergeSort mtimeGe).length then (files.mergeSort mtimeGe).take cap
  else files.mergeSort mtimeGe

/-! ## Cache-aware uploader (`real_debrid_cached_uploader.py`) -/

/-- One element of a variant's `files` list (`{'filename': ..., 'filesize': ...}`);
either key may be absent. -/
structure FileEntry where
  filename : Option String
  filesize : Nat
  deriving Repr, DecidableEq

/-- The value under one variant id in the instant-availability response:
either a JSON object (whose possibly-absent `files` key is modelled as a
list, empty when absent) or anything else, which the
`isinstance(variant_info, dict)` check skips. -/
inductive VariantVal where
  | dictV (files : List FileEntry)
  | otherV
  deriving Repr, DecidableEq

/-- One entry of the `cached_variants` list built by `is_torrent_cached`. -/
structure CachedVariant where
  variantId : String
  videoFiles : List (Option String × Nat)
  totalFiles : Nat
  deriving Repr, DecidableEq

/-- The instant-availability response: hash → (variant id → value). -/
abbrev CacheData := List (String × List (String × VariantVal))

/-- Lookup of a hash in the response (`torrent_hash in cache_data` /
`cache_data[torrent_hash]`). -/
def lookupCD : CacheData → String → Option (List (String × VariantVal))
  | [], _ => none
  | (k, v) :: rest, h => if k = h then some v else lookupCD rest h

/-- `video_extensions` of `is_torrent_cached`. -/
def videoExtensions : List String :=
  [".mkv", ".mp4", ".avi", ".mov", ".wmv", ".flv", ".webm", ".m4v"]

/-- The per-file test: `file_info.get('filename', '').lower()` ends with one
of the video extensions. -/
def isVideoFile (f : FileEntry) : Bool :=
  videoExtensions.any (fun ext => pyEndsWith (pyToLower (f.filename.getD "")) ext)

/-- The contribution of one `(variant_id, variant_info)` pair to
`cached_variants`: skipped for non-dicts, for empty file lists, and when no
file has a video extension. -/
def variantContrib (p : String × VariantVal) : Option CachedVariant :=
  match p.2 with
  | .otherV => none
  | .dictV files =>
    if files.isEmpty then none
    else
      let videoFiles := (files.filter isVideoFile).map (fun f => (f.filename, f.filesize))
      if videoFiles.isEmpty then none
      else some { variantId := p.1, videoFiles := videoFiles, totalFiles := files.length }

/-- The `cached_variants` accumulation loop of `is_torrent_cached`. -/
def variantsOf (ti : List (String × VariantVal)) : List CachedVariant :=
  ti.filterMap variantContrib

/-- `RealDebridCachedUploader.is_torrent_cached`: `(False, [])` when the hash
is absent from the response, else `(len(cached_variants) > 0, cached_variants)`. -/
def isTorrentCached (torrentHash : String) (cacheData : CacheData) :
    Bool × List CachedVariant :=
  match lookupCD cacheData torrentHash with
  | none => (false, [])
  | some ti => ((variantsOf ti).length > 0, variantsOf ti)

/-- A queued item of the cached uploader's `main`: its extracted hash plus an
opaque tag standing for the file path / magnet info. -/
structure CItem where
  hash : String
  tag : String
  deriving Repr, DecidableEq

/-- `RealDebridCachedUploader.cache_check_batch_size`. -/
def cacheCheckBatchSize : Nat := 10

/-- Fuel-driven chunking of the item list into batches of
`cache_check_batch_size` (`magnet_data[i:i + batch_size]`). -/
def chunksGo : Nat → List CItem → List (List CItem)
  | _, [] => []
  | 0, _ :: _ => []
  | fuel + 1, x :: xs =>
    ((x :: xs).take cacheCheckBatchSize) :: chunksGo fuel ((x :: xs).drop cacheCheckBatchSize)

/-- The batches `main` iterates over. -/
def chunksOf (items : List CItem) : List (List CItem) :=
  chunksGo items.length items

/-- The cache-check loop of `main`: each batch is checked against the
response the service returns for it (`oracle k` for batch number `k`), and
each item is routed to `cached_torrents` (with its variants) or
`uncached_torrents`. -/
def checkBatches : List (List CItem) → (Nat → CacheData) → Nat →
    List (CItem × List CachedVariant) × List CItem
  | [], _, _ => ([], [])
  | b :: bs, oracle, k =>
    let cd := oracle k
    let thisCached :=
      (b.filter (fun it => (isTorrentCached it.hash cd).1)).map
        (fun it => (it, (isTorrentCached it.hash cd).2))
    let thisUncached := b.filter (fun it => !(isTorrentCached it.hash cd).1)
    let res := checkBatches bs oracle (k + 1)
    (thisCached ++ res.1, thisUncached ++ res.2)

/-- The full cache-check pass of the cached uploader's `main`. -/
def cachedCheckRun (items : List CItem) (oracle : Nat → CacheData) :
    List (CItem × List CachedVariant) × List CItem :=
  checkBatches (chunksOf items) oracle 0

/-- The uploads the cached uploader attempts: exactly the items of
`cached_torrents`, in order (`for torrent_data in cached_torrents`). -/
def cachedUploadsAttempted (items : List CItem) (oracle : Nat → CacheData) :
    List CItem :=
  (cachedCheckRun items oracle).1.map (·.1)

/-! ## Theorems -/

/-- C1.  Page-count derivation: `page_count = trunc(movie_count/50) + 1`,
replaced by 2 exactly when that value equals 1 (i.e. when the count is below
one page); the run fetches exactly the pages from the starting page up to but
excluding `page_count`; for `movie_count = 120, start = 1` the pages are
`[1, 2]` and page 3 is never fetched; for `movie_count = 40` the pages are
`[1]` only. -/
theorem pagination_pageCount_spec :
    (∀ movieCount : Nat, movieCount < 50 → pageCount movieCount = 2) ∧
    (∀ movieCount : Nat, 50 ≤ movieCount → pageCount movieCount = movieCount / 50 + 1) ∧
    (∀ movieCount pageArg p : Nat, 0 < movieCount →
      initializePages pageArg movieCount = some (downloadPages pageArg movieCount) ∧
      (p ∈ downloadPages pageArg movieCount ↔ pageArg ≤ p ∧ p < pageCount movieCount)) ∧
    initializePages 1 120 = some [1, 2] ∧ 3 ∉ downloadPages 1 120 ∧
    initializePages 1 40 = some [1] := by
  refine ⟨?_, ?_, ?_, by decide, by decide, by decide⟩
  · intro n hn
    have h : n / 50 = 0 := Nat.div_eq_of_lt hn
    simp [pageCount, apiLimit, h]
  · intro n hn
    have h : 0 < n / 50 := Nat.div_pos hn (by decide)
    simp [pageCount, apiLimit]
    omega
  · intro n s p hn
    constructor
    · simp [initializePages, Nat.pos_iff_ne_zero.mp hn]
    · unfold downloadPages pythonRange
      rw [List.mem_range'_1]
      omega

/-- C1 witness: the general parts of `pagination_pageCount_spec` evaluated at
the documented boundary inputs. -/
theorem pagination_pageCount_spec_witness :
    pageCount 40 = 2 ∧ pageCount 120 = 120 / 50 + 1 ∧
    (2 ∈ downloadPages 1 120 ↔ 1 ≤ 2 ∧ 2 < pageCount 120) :=
  ⟨pagination_pageCount_spec.1 40 (by decide),
   pagination_pageCount_spec.2.1 120 (by decide),
   (pagination_pageCount_spec.2.2.1 120 1 2 (by decide)).2⟩

/-- C8.  The backoff wait applied by `_handle_rate_limit_error` on error code
34 is `backoff_delay * 2 ** min(consecutive, 3)` where `consecutive` is the
value of the consecutive-rate-limit counter when the error is handled (the
source increments first, then uses `min(counter - 1, 3)`). -/
theorem adaptive_backoff_spec (consec : Nat) :
    (handleRateLimitError consec 34).2 = 60 * 2 ^ min consec 3 ∧
    (handleRateLimitError consec 34).1 = consec + 1 := by
  simp [handleRateLimitError, backoffDelay]

/-- C3.  `_load_cache`: on any read/parse failure the result is the empty
map; every retained entry has a `last_seen` field strictly greater than the
30-day cutoff (so no retained entry is older than 30 days before load time,
and entries missing the field are dropped); entries at or below the cutoff
are dropped.  The hypothesis states the factual `'1900-01-01' <= cutoff`
(the cutoff is a current ISO date). -/
theorem loadCache_spec (readResult : Except String Cache) (cutoffDate : String)
    (hcut : pyStrLt cutoffDate "1900-01-01" = false) :
    (∀ msg, readResult = .error msg → loadCache readResult cutoffDate = []) ∧
    (∀ mid e, (mid, e) ∈ loadCache readResult cutoffDate →
      ∃ ls, e.last_seen = some ls ∧ pyStrLt cutoffDate ls = true) ∧
    (∀ m, readResult = .ok m → ∀ mid e, (mid, e) ∈ m →
      pyStrLt cutoffDate (e.last_seen.getD "1900-01-01") = false →
      (mid, e) ∉ loadCache readResult cutoffDate) := by
  refine ⟨?_, ?_, ?_⟩
  · intro msg hmsg
    subst hmsg
    rfl
  · intro mid e hmem
    cases readResult with
    | error msg => simp [loadCache] at hmem
    | ok m =>
      simp only [loadCache, List.mem_filter] at hmem
      cases hls : e.last_seen with
      | none =>
        rw [hls] at hmem
        simp [Option.getD] at hmem
        rw [hcut] at hmem
        exact absurd hmem.2 (by simp)
      | some ls =>
        refine ⟨ls, rfl, ?_⟩
        rw [hls] at hmem
        simpa using hmem.2
  · intro m hm mid e _hmem hfalse
    subst hm
    simp only [loadCache, List.mem_filter]
    intro hcontra
    rw [hfalse] at hcontra
    exact absurd hcontra.2 (by simp)

/-- C3 witness: a concrete load with a fresh entry, a stale entry and an
entry missing `last_seen`, read successfully. -/
theorem loadCache_spec_witness :
    pyStrLt "2026-01-01T00:00:00" "1900-01-01" = false ∧
    (∃ ls, ({ name := "A", year := some 2024, qualities := ["2160p"],
              first_seen := some "2026-01-02T00:00:00",
              last_seen := some "2026-01-02T00:00:00" } : CacheEntry).last_seen = some ls ∧
      pyStrLt "2026-01-01T00:00:00" ls = true) := by
  refine ⟨by decide, ?_⟩
  have h := loadCache_spec
    (.ok [("7", { name := "A", year := some 2024, qualities := ["2160p"],
                  first_seen := some "2026-01-02T00:00:00",
                  last_seen := some "2026-01-02T00:00:00" })])
    "2026-01-01T00:00:00" (by decide)
  exact h.2.1 "7"
    { name := "A", year := some 2024, qualities := ["2160p"],
      first_seen := some "2026-01-02T00:00:00",
      last_seen := some "2026-01-02T00:00:00" } (by decide)

/-- C9.  `__build_path` is a pure function of its inputs (identical inputs
give an identical result), and the sanitization applied to the display name
before the path is formed removes exactly the occurrences of the illegal
filesystem characters `' / \ : * ? < > |`: none remains, nothing else is
removed, and the surviving characters keep their order. -/
theorem buildPath_spec :
    (∀ (cfg cfg' : ScrapeConfig) (n r q : String) (g : Option String) (i : String) (y : Int),
      cfg.csvOnly = cfg'.csvOnly → cfg.directory = cfg'.directory →
      cfg.imdbFlag = cfg'.imdbFlag →
      buildPath cfg n r q g i y = buildPath cfg' n r q g i y) ∧
    (∀ s c, c ∈ illegalChars → c ∉ (sanitizeName s).data) ∧
    (∀ s c, c ∈ (sanitizeName s).data → c ∈ s.data ∧ c ∉ illegalChars) ∧
    (∀ s, (sanitizeName s).data.Sublist s.data) := by
  refine ⟨?_, ?_, ?_, ?_⟩
  · intro cfg cfg' n r q g i y h1 h2 h3
    simp [buildPath, h1, h2, h3]
  · intro s c hc hmem
    simp only [sanitizeName, List.mem_filter] at hmem
    simp at hmem
    exact hmem.2 hc
  · intro s c hmem
    simp only [sanitizeName, List.mem_filter] at hmem
    simp at hmem
    exact hmem
  · intro s
    exact List.filter_sublist _

/-- C9 witness: the purity and stripping statements at a concrete
display name containing illegal characters. -/
theorem buildPath_spec_witness :
    ('\'' ∈ illegalChars) ∧ '\'' ∉ (sanitizeName "Luc's: Movie?").data ∧
    ('s' ∈ (sanitizeName "Luc's: Movie?").data →
      's' ∈ "Luc's: Movie?".data ∧ 's' ∉ illegalChars) :=
  ⟨by decide, buildPath_spec.2.1 "Luc's: Movie?" '\'' (by decide),
   buildPath_spec.2.2.1 "Luc's: Movie?" 's'⟩

/-! ### Cache-record lemmas (towards C4, C5) -/

/-- The entry stored for `mid` by one `_cache_movie` call. -/
def cmEntry (c : Cache) (mid movieName : String) (year : Option Int)
    (quality now : String) : CacheEntry :=
  let e0 : CacheEntry := match lookupE c mid with
    | none =>
        { name := movieName, year := year, qualities := [],
          first_seen := some now, last_seen := some now }
    | some e => e
  let e1 := { e0 with last_seen := some now }
  if quality ∈ e1.qualities then e1
  else { e1 with qualities := e1.qualities ++ [quality] }

theorem lookupE_setE_self (c : Cache) (mid : String) (e : CacheEntry) :
    lookupE (setE c mid e) mid = some e := by
  induction c with
  | nil => simp [setE, lookupE]
  | cons p rest ih =>
    obtain ⟨k, e0⟩ := p
    by_cases h : k = mid <;> simp [setE, lookupE, h, ih]

theorem lookupE_setE_other (c : Cache) (mid j : String) (e : CacheEntry)
    (h : j ≠ mid) : lookupE (setE c mid e) j = lookupE c j := by
  induction c with
  | nil => simp [setE, lookupE, Ne.symm h]
  | cons p rest ih =>
    obtain ⟨k, e0⟩ := p
    by_cases hk : k = mid
    · subst hk
      simp [setE, lookupE, h, Ne.symm h]
    · by_cases hj : k = j <;> simp [setE, lookupE, hk, hj, ih, h, Ne.symm h]

theorem lookupE_cacheMovie_self (c : Cache) (mid movieName : String)
    (year : Option Int) (quality now : String) :
    lookupE (cacheMovie c mid movieName year quality now) mid =
      some (cmEntry c mid movieName year quality now) := by
  unfold cacheMovie cmEntry
  exact lookupE_setE_self ..

theorem lookupE_cacheMovie_other (c : Cache) (mid j movieName : String)
    (year : Option Int) (quality now : String) (h : j ≠ mid) :
    lookupE (cacheMovie c mid movieName year quality now) j = lookupE c j := by
  unfold cacheMovie
  exact lookupE_setE_other _ _ _ _ h

/-- The quality list stored for an existing id after one `_cache_movie`
call: unchanged when the quality is already present, else with it appended. -/
def qualitiesAfter (old : List String) (quality : String) : List String :=
  if quality ∈ old then old else old ++ [quality]

theorem cmEntry_qualities (c : Cache) (mid movieName : String)
    (year : Option Int) (quality now : String) :
    (cmEntry c mid movieName year quality now).qualities =
      qualitiesAfter ((lookupE c mid).elim [] CacheEntry.qualities) quality := by
  unfold cmEntry qualitiesAfter
  cases lookupE c mid <;> simp <;> split <;> simp_all

theorem cmEntry_first_seen (c : Cache) (mid movieName : String)
    (year : Option Int) (quality now : String) :
    (cmEntry c mid movieName year quality now).first_seen =
      (lookupE c mid).elim (some now) CacheEntry.first_seen := by
  unfold cmEntry
  cases lookupE c mid <;> simp <;> split <;> simp

theorem mem_qualitiesAfter (old : List String) (quality : String) :
    quality ∈ qualitiesAfter old quality := by
  unfold qualitiesAfter
  split <;> simp_all

theorem isMovieCached_cacheMovie_self (c : Cache) (mid movieName : String)
    (year : Option Int) (quality now : String) :
    isMovieCached (cacheMovie c mid movieName year quality now) mid quality = true := by
  unfold isMovieCached
  rw [lookupE_cacheMovie_self]
  simp [cmEntry_qualities]
  exact mem_qualitiesAfter ..

/-- One recorded (id, quality) operation of a scrape run. -/
structure RecordOp where
  mid : String
  movieName : String
  year : Option Int
  quality : String
  now : String

/-- A sequence of `_cache_movie` calls applied in order. -/
def applyOps (ops : List RecordOp) (c : Cache) : Cache :=
  ops.foldl (fun c o => cacheMovie c o.mid o.movieName o.year o.quality o.now) c

theorem cacheMovie_step_mono (c : Cache) (mid movieName : String)
    (year : Option Int) (quality now : String) (j : String) (e : CacheEntry)
    (h : lookupE c j = some e) :
    ∃ e', lookupE (cacheMovie c mid movieName year quality now) j = some e' ∧
      e.qualities <+: e'.qualities ∧ e'.first_seen = e.first_seen := by
  by_cases hj : j = mid
  · subst hj
    refine ⟨cmEntry c j movieName year quality now, lookupE_cacheMovie_self .., ?_, ?_⟩
    · rw [cmEntry_qualities, h]
      unfold qualitiesAfter
      split
      · exact List.prefix_rfl
      · exact List.prefix_append _ _
    · rw [cmEntry_first_seen, h]
      simp
  · exact ⟨e, by rw [lookupE_cacheMovie_other _ _ _ _ _ _ _ hj, h], List.prefix_rfl, rfl⟩

theorem cacheMovie_step_nodup (c : Cache) (mid movieName : String)
    (year : Option Int) (quality now : String)
    (h : ∀ i e, lookupE c i = some e → e.qualities.Nodup) :
    ∀ j e', lookupE (cacheMovie c mid movieName year quality now) j = some e' →
      e'.qualities.Nodup := by
  intro j e' hj
  by_cases hjm : j = mid
  · subst hjm
    rw [lookupE_cacheMovie_self] at hj
    cases hj
    rw [cmEntry_qualities]
    unfold qualitiesAfter
    cases hold : lookupE c j with
    | none => simp
    | some e =>
      have hnd := h j e hold
      simp only [hold, Option.elim]
      split
      · exact hnd
      · rename_i hnotmem
        simp [List.nodup_append, hnd, hnotmem]
  · rw [lookupE_cacheMovie_other _ _ _ _ _ _ _ hjm] at hj
    exact h j e' hj

theorem applyOps_mono (ops : List RecordOp) (c : Cache) (j : String)
    (e : CacheEntry) (h : lookupE c j = some e) :
    ∃ e', lookupE (applyOps ops c) j = some e' ∧
      e.qualities <+: e'.qualities ∧ e'.first_seen = e.first_seen := by
  induction ops generalizing c e with
  | nil => exact ⟨e, h, List.prefix_rfl, rfl⟩
  | cons o rest ih =>
    obtain ⟨e1, he1, hpre1, hfs1⟩ :=
      cacheMovie_step_mono c o.mid o.movieName o.year o.quality o.now j e h
    obtain ⟨e', he', hpre', hfs'⟩ := ih _ _ he1
    exact ⟨e', he', hpre1.trans hpre', by rw [hfs', hfs1]⟩

theorem applyOps_nodup (ops : List RecordOp) (c : Cache)
    (h : ∀ i e, lookupE c i = some e → e.qualities.Nodup) :
    ∀ j e', lookupE (applyOps ops c) j = some e' → e'.qualities.Nodup := by
  induction ops generalizing c with
  | nil => exact h
  | cons o rest ih =>
    exact ih _ (cacheMovie_step_nodup c o.mid o.movieName o.year o.quality o.now h)

/-- C4.  `_cache_movie` is idempotent on the quality list: a second call with
the same (id, quality) leaves the entry's quality list (hence its size)
exactly as after the first call; across any sequence of record calls an
existing entry's quality list only grows (the old list stays a prefix) and
its first-seen timestamp never changes after creation; and record calls
never introduce duplicate qualities. -/
theorem cacheRecord_spec :
    (∀ (c : Cache) (mid n1 n2 : String) (y1 y2 : Option Int) (q t1 t2 : String),
      (lookupE (cacheMovie (cacheMovie c mid n1 y1 q t1) mid n2 y2 q t2) mid).elim
          [] CacheEntry.qualities =
        (lookupE (cacheMovie c mid n1 y1 q t1) mid).elim [] CacheEntry.qualities) ∧
    (∀ (ops : List RecordOp) (c : Cache) (j : String) (e : CacheEntry),
      lookupE c j = some e →
      ∃ e', lookupE (applyOps ops c) j = some e' ∧
        e.qualities <+: e'.qualities ∧ e'.first_seen = e.first_seen) ∧
    (∀ (ops : List RecordOp) (c : Cache),
      (∀ i e, lookupE c i = some e → e.qualities.Nodup) →
      ∀ j e', lookupE (applyOps ops c) j = some e' → e'.qualities.Nodup) := by
  refine ⟨?_, applyOps_mono, applyOps_nodup⟩
  intro c mid n1 n2 y1 y2 q t1 t2
  rw [lookupE_cacheMovie_self, lookupE_cacheMovie_self]
  simp only [Option.elim]
  rw [cmEntry_qualities, lookupE_cacheMovie_self]
  simp only [Option.elim]
  rw [cmEntry_qualities]
  generalize (lookupE c mid).elim [] CacheEntry.qualities = old
  unfold qualitiesAfter
  have hq := mem_qualitiesAfter old q
  unfold qualitiesAfter at hq
  simp [hq]

/-- C4 witness: the sequence statements of `cacheRecord_spec` applied to a
concrete one-entry cache and a concrete operation. -/
theorem cacheRecord_spec_witness :
    (∃ e', lookupE (applyOps [⟨"1", "A", some 2020, "1080p", "t2"⟩]
        [("1", { name := "A", year := some 2020, qualities := ["720p"],
                 first_seen := some "t0", last_seen := some "t1" })]) "1" = some e' ∧
      ["720p"] <+: e'.qualities ∧ e'.first_seen = some "t0") ∧
    (∀ j e', lookupE (applyOps [⟨"1", "A", some 2020, "1080p", "t2"⟩]
        [("1", { name := "A", year := some 2020, qualities := ["720p"],
                 first_seen := some "t0", last_seen := some "t1" })]) j = some e' →
      e'.qualities.Nodup) := by
  constructor
  · exact cacheRecord_spec.2.1 [⟨"1", "A", some 2020, "1080p", "t2"⟩] _ "1"
      { name := "A", year := some 2020, qualities := ["720p"],
        first_seen := some "t0", last_seen := some "t1" } (by decide)
  · refine cacheRecord_spec.2.2 [⟨"1", "A", some 2020, "1080p", "t2"⟩] _ ?_
    intro i e hi
    by_cases h1 : i = "1"
    · subst h1
      simp [lookupE] at hi
      cases hi
      decide
    · simp [lookupE, Ne.symm h1] at hi

/-! ### Persist / filter theorems (C5, C6) -/

theorem prompt_no_exit (cfg : ScrapeConfig) (st : ScrapeState)
    (h : cfg.autoContinue = true ∨ pyToLower cfg.promptAnswer ≠ "n") :
    ∃ st1, promptExistingFiles cfg st = some st1 ∧
      st1.files = st.files ∧ st1.cache = st.cache ∧ st1.csvRows = st.csvRows ∧
      st1.posterFiles = st.posterFiles ∧ st1.downloadedIds = st.downloadedIds := by
  unfold promptExistingFiles
  by_cases hauto : cfg.autoContinue = true
  · rw [if_pos hauto]
    exact ⟨_, rfl, rfl, rfl, rfl, rfl, rfl⟩
  · have hn : pyToLower cfg.promptAnswer ≠ "n" := h.resolve_left hauto
    rw [if_neg hauto, if_neg hn]
    by_cases hy : pyToLower cfg.promptAnswer = "y"
    · rw [if_pos hy]
      exact ⟨_, rfl, rfl, rfl, rfl, rfl, rfl⟩
    · rw [if_neg hy]
      exact ⟨_, rfl, rfl, rfl, rfl, rfl, rfl⟩

/-- C5.  `__save_magnet_info` when the derived descriptor file already
exists (and the run is not csv-only, the quality field is truthy, and the
existing-file prompt does not abort): the call returns `False` (written =
false), the filesystem is left entirely unchanged (in particular the
existing descriptor's contents), and the (id, quality) pair is still
recorded into the persistent cache. -/
theorem saveMagnet_existing_spec (cfg : ScrapeConfig) (st : ScrapeState)
    (torrentHash : String) (posterImg : Option String) (p : String)
    (movieName movieId q : String) (imdbId : Option String) (year : Option Int)
    (hcsv : cfg.csvOnly = false) (hq : q ≠ "")
    (hnoexit : st.existingCounter ≤ 10 ∨ st.skipExit = true ∨
      cfg.autoContinue = true ∨ pyToLower cfg.promptAnswer ≠ "n")
    (hex : fileExists st.files (p ++ ".magnet") = true) :
    ∃ st', saveMagnetInfo cfg st torrentHash posterImg (some p) movieName movieId
        (some q) imdbId year = some (some false, st') ∧
      st'.files = st.files ∧ st'.posterFiles = st.posterFiles ∧
      st'.csvRows = st.csvRows ∧
      isMovieCached st'.cache movieId q = true := by
  have hcore : ∀ stc : ScrapeState, fileExists stc.files (p ++ ".magnet") = true →
      ∃ st', saveMagnetCore cfg stc torrentHash posterImg (some p) movieName movieId
          (some q) imdbId year = (some false, st') ∧
        st'.files = stc.files ∧ st'.posterFiles = stc.posterFiles ∧
        st'.csvRows = stc.csvRows ∧
        isMovieCached st'.cache movieId q = true := by
    intro stc hexc
    unfold saveMagnetCore
    simp only [Option.getD_some]
    rw [if_pos hexc]
    refine ⟨_, rfl, by simp [cacheIfQuality, hq], by simp [cacheIfQuality, hq],
      by simp [cacheIfQuality, hq], ?_⟩
    simp [cacheIfQuality, hq]
    exact isMovieCached_cacheMovie_self ..
  unfold saveMagnetInfo
  rw [hcsv]
  simp only [Bool.false_eq_true, if_false]
  by_cases hcond : st.existingCounter > 10 ∧ st.skipExit = false
  · have hpr : cfg.autoContinue = true ∨ pyToLower cfg.promptAnswer ≠ "n" := by
      rcases hnoexit with h1 | h2 | h3 | h4
      · omega
      · rw [h2] at hcond
        exact absurd hcond.2 (by simp)
      · exact Or.inl h3
      · exact Or.inr h4
    obtain ⟨st1, hst1, hf, hc, hcsvr, hpf, hdl⟩ := prompt_no_exit cfg st hpr
    rw [if_pos hcond, hst1]
    obtain ⟨st', hcall, hf', hpf', hcsv', hcache'⟩ := hcore st1 (by rw [hf]; exact hex)
    refine ⟨st', ?_, by rw [hf', hf], by rw [hpf', hpf], by rw [hcsv', hcsvr], hcache'⟩
    show some (saveMagnetCore cfg st1 torrentHash posterImg (some p) movieName movieId
      (some q) imdbId year) = some (some false, st')
    rw [hcall]
  · rw [if_neg hcond]
    obtain ⟨st', hcall, hf', hpf', hcsv', hcache'⟩ := hcore st hex
    refine ⟨st', ?_, hf', hpf', hcsv', hcache'⟩
    show some (saveMagnetCore cfg st torrentHash posterImg (some p) movieName movieId
      (some q) imdbId year) = some (some false, st')
    rw [hcall]

/-- C5 witness: a concrete save against a state that already holds the
descriptor file. -/
theorem saveMagnet_existing_spec_witness :
    ∃ st', saveMagnetInfo
        { quality := "2160p", categorize := none, yearLimit := 2000,
          imdbFlag := false, csvOnly := false, poster := false,
          directory := "Downloads", autoContinue := true, promptAnswer := "",
          now := "t1" }
        { files := [("Downloads/M (2020)/M.2160p.magnet",
            { magnetLink := "x", hash := "h", movieName := "M", year := some 2020,
              quality := some "2160p", imdbId := some "tt1", movieId := "9",
              createdAt := "t0" })],
          posterFiles := [], csvRows := [], cache := [], downloadedIds := [],
          existingCounter := 0, skipExit := false }
        "h" none (some "Downloads/M (2020)/M.2160p") "M" "9" (some "2160p")
        (some "tt1") (some 2020) = some (some false, st') ∧
      st'.files = [("Downloads/M (2020)/M.2160p.magnet",
        { magnetLink := "x", hash := "h", movieName := "M", year := some 2020,
          quality := some "2160p", imdbId := some "tt1", movieId := "9",
          createdAt := "t0" })] ∧
      isMovieCached st'.cache "9" "2160p" = true := by
  obtain ⟨st', h1, h2, _h3, _h4, h5⟩ := saveMagnet_existing_spec
    { quality := "2160p", categorize := none, yearLimit := 2000,
      imdbFlag := false, csvOnly := false, poster := false,
      directory := "Downloads", autoContinue := true, promptAnswer := "",
      now := "t1" }
    { files := [("Downloads/M (2020)/M.2160p.magnet",
        { magnetLink := "x", hash := "h", movieName := "M", year := some 2020,
          quality := some "2160p", imdbId := some "tt1", movieId := "9",
          createdAt := "t0" })],
      posterFiles := [], csvRows := [], cache := [], downloadedIds := [],
      existingCounter := 0, skipExit := false }
    "h" none "Downloads/M (2020)/M.2160p" "M" "9" "2160p" (some "tt1") (some 2020)
    rfl (by decide) (Or.inl (by decide)) (by decide)
  exact ⟨st', h1, by rw [h2], h5⟩

/-- C6.  A release whose year is strictly below the configured year floor is
rejected by `__filter_torrents` before any effect: the returned state is the
input state unchanged — no descriptor file written, no CSV row logged,
nothing recorded into the cache — for every quality, genre and categorize
configuration. -/
theorem yearFloor_spec (cfg : ScrapeConfig) (m : Movie) (posterData : Option String)
    (st : ScrapeState) (h : m.year < cfg.yearLimit) :
    filterTorrents cfg m posterData st = some st ∧
    (∀ st', filterTorrents cfg m posterData st = some st' →
      st'.files = st.files ∧ st'.csvRows = st.csvRows ∧ st'.cache = st.cache) := by
  have hmain : filterTorrents cfg m posterData st = some st := by
    unfold filterTorrents
    rw [if_pos h]
  refine ⟨hmain, ?_⟩
  intro st' hst'
  rw [hmain] at hst'
  cases hst'
  exact ⟨rfl, rfl, rfl⟩

/-- C6 witness: a 1999 release against a year floor of 2000, with a torrent
that would otherwise be persisted. -/
theorem yearFloor_spec_witness :
    filterTorrents
      { quality := "all", categorize := none, yearLimit := 2000,
        imdbFlag := false, csvOnly := false, poster := false,
        directory := "Downloads", autoContinue := true, promptAnswer := "",
        now := "t1" }
      { id := "5", rating := "7.1", genres := some ["Action"], title := "Old",
        titleLong := "Old (1999)", imdbCode := "tt5", year := 1999,
        language := "en", url := "u",
        torrents := some [{ quality := "2160p", url := "tu", hash := "h" }] }
      none
      { files := [], posterFiles := [], csvRows := [], cache := [],
        downloadedIds := [], existingCounter := 0, skipExit := false } =
    some { files := [], posterFiles := [], csvRows := [], cache := [],
           downloadedIds := [], existingCounter := 0, skipExit := false } :=
  (yearFloor_spec _ _ _ _ (by decide)).1

/-! ### Orchestrator theorems (C2, C7) -/

/-- The halt condition of the orchestrator loop, read off an attempt record:
the upload ended in a failure carrying a rate-limit/quota error code while
the consecutive-rate-limit counter stood at 3 or more. -/
def isRLHalt (a : AttemptRecord) : Prop :=
  (a.result = .failed (some 21) ∨ a.result = .failed (some 34)) ∧ 3 ≤ a.consecAfter

theorem uploadGo_ok_consec (script : Nat → AttemptOutcome) :
    ∀ (r a c : Nat) (tid : String) (c' : Nat),
      uploadGo script a r c = (.ok tid, c') → c' = 0 := by
  intro r
  induction r with
  | zero =>
    intro a c tid c' h
    simp [uploadGo] at h
  | succ n ih =>
    intro a c tid c' h
    unfold uploadGo at h
    cases hs : script a with
    | created t =>
      simp only [hs] at h
      injection h with h1 h2
      exact h2.symm
    | apiError code =>
      simp only [hs] at h
      by_cases hc : code = some 34 ∨ code = some 21
      · rw [if_pos hc] at h
        by_cases hn : n > 0
        · rw [if_pos hn] at h
          exact ih _ _ _ _ h
        · rw [if_neg hn] at h
          simp at h
      · rw [if_neg hc] at h
        simp at h
    | netError =>
      simp only [hs] at h
      by_cases hn : n > 0
      · rw [if_pos hn] at h
        exact ih _ _ _ _ h
      · rw [if_neg hn] at h
        simp at h

theorem runGo_cons_none (d : Descriptor) (rest : List Descriptor) (i : Nat)
    (out : RunOutcome) (hload : d.load = none) :
    runGo (d :: rest) i out =
      runGo rest (i + 1) { out with failures := out.failures + 1 } := by
  rw [runGo.eq_def]
  simp only [hload]

theorem runGo_cons_ok (d : Descriptor) (rest : List Descriptor) (i : Nat)
    (out : RunOutcome) (script : Nat → AttemptOutcome) (tid : String) (c' : Nat)
    (hload : d.load = some script)
    (hup : uploadMagnetLink out.consec script = (.ok tid, c')) :
    runGo (d :: rest) i out =
      runGo rest (i + 1)
        { out with
          consec := c',
          attempts := out.attempts ++ [⟨i, d.mtime, out.consec, .ok tid, c'⟩],
          successes := out.successes + 1 } := by
  rw [runGo.eq_def]
  simp only [hload, hup]

theorem runGo_cons_failed (d : Descriptor) (rest : List Descriptor) (i : Nat)
    (out : RunOutcome) (script : Nat → AttemptOutcome) (code : Option Nat) (c' : Nat)
    (hload : d.load = some script)
    (hup : uploadMagnetLink out.consec script = (.failed code, c')) :
    runGo (d :: rest) i out =
      (if (code = some 21 ∨ code = some 34) ∧ 3 ≤ c' then
        { out with
          consec := c',
          attempts := out.attempts ++ [⟨i, d.mtime, out.consec, .failed code, c'⟩],
          skipped := rest.length }
      else
        runGo rest (i + 1)
          { out with
            consec := c',
            attempts := out.attempts ++ [⟨i, d.mtime, out.consec, .failed code, c'⟩],
            failures := out.failures + 1 }) := by
  rw [runGo.eq_def]
  simp only [hload, hup]

theorem runGo_halt_spec : ∀ (ds : List Descriptor) (i : Nat) (out : RunOutcome),
    (∀ a ∈ out.attempts, a.idx < i ∧ ¬ isRLHalt a) → out.skipped = 0 →
    (∀ a ∈ (runGo ds i out).attempts, a.idx < i + ds.length) ∧
    (∀ a ∈ (runGo ds i out).attempts, isRLHalt a →
      (∀ b ∈ (runGo ds i out).attempts, b.idx ≤ a.idx) ∧
      (runGo ds i out).skipped = i + ds.length - (a.idx + 1)) := by
  intro ds
  induction ds with
  | nil =>
    intro i out hpre hskip
    refine ⟨?_, ?_⟩
    · intro a ha
      simpa using (hpre a ha).1
    · intro a ha hhalt
      exact absurd hhalt (hpre a ha).2
  | cons d rest ih =>
    intro i out hpre hskip
    cases hload : d.load with
    | none =>
      rw [runGo_cons_none d rest i out hload]
      have hpre' : ∀ a ∈ ({ out with failures := out.failures + 1 } : RunOutcome).attempts,
          a.idx < i + 1 ∧ ¬ isRLHalt a := by
        intro a ha
        exact ⟨Nat.lt_succ_of_lt (hpre a ha).1, (hpre a ha).2⟩
      have hrec := ih (i + 1) _ hpre' hskip
      constructor
      · intro a ha
        have := hrec.1 a ha
        simp only [List.length_cons]
        omega
      · intro a ha hh
        have h2 := hrec.2 a ha hh
        refine ⟨h2.1, ?_⟩
        rw [h2.2]
        simp only [List.length_cons]
        omega
    | some script =>
      rcases hup : uploadMagnetLink out.consec script with ⟨res, c'⟩
      cases res with
      | ok tid =>
        rw [runGo_cons_ok d rest i out script tid c' hload hup]
        have hnothalt : ¬ isRLHalt (⟨i, d.mtime, out.consec, .ok tid, c'⟩ : AttemptRecord) := by
          intro hh
          rcases hh.1 with h1 | h1 <;> simp at h1
        have hpre' : ∀ a ∈ ({ out with
            consec := c',
            attempts := out.attempts ++ [⟨i, d.mtime, out.consec, .ok tid, c'⟩],
            successes := out.successes + 1 } : RunOutcome).attempts,
            a.idx < i + 1 ∧ ¬ isRLHalt a := by
          intro a ha
          rcases List.mem_append.mp ha with h1 | h1
          · exact ⟨Nat.lt_succ_of_lt (hpre a h1).1, (hpre a h1).2⟩
          · rcases List.mem_singleton.mp h1 with rfl
            exact ⟨Nat.lt_succ_self i, hnothalt⟩
        have hrec := ih (i + 1) _ hpre' hskip
        constructor
        · intro a ha
          have := hrec.1 a ha
          simp only [List.length_cons]
          omega
        · intro a ha hh
          have h2 := hrec.2 a ha hh
          refine ⟨h2.1, ?_⟩
          rw [h2.2]
          simp only [List.length_cons]
          omega
      | failed code =>
        rw [runGo_cons_failed d rest i out script code c' hload hup]
        by_cases hcond : (code = some 21 ∨ code = some 34) ∧ 3 ≤ c'
        · rw [if_pos hcond]
          constructor
          · intro a ha
            rcases List.mem_append.mp ha with h1 | h1
            · have := (hpre a h1).1
              simp only [List.length_cons]
              omega
            · rcases List.mem_singleton.mp h1 with rfl
              simp only [List.length_cons]
              omega
          · intro a ha hh
            constructor
            · intro b hb
              rcases List.mem_append.mp ha with h1 | h1
              · exact absurd hh (hpre a h1).2
              · rcases List.mem_singleton.mp h1 with rfl
                rcases List.mem_append.mp hb with h2 | h2
                · exact Nat.le_of_lt (hpre b h2).1
                · rcases List.mem_singleton.mp h2 with rfl
                  exact Nat.le_refl _
            · rcases List.mem_append.mp ha with h1 | h1
              · exact absurd hh (hpre a h1).2
              · rcases List.mem_singleton.mp h1 with rfl
                simp only [List.length_cons]
                omega
        · rw [if_neg hcond]
          have hnothalt : ¬ isRLHalt (⟨i, d.mtime, out.consec, .failed code, c'⟩ : AttemptRecord) := by
            intro hh
            apply hcond
            refine ⟨?_, hh.2⟩
            rcases hh.1 with h1 | h1 <;> simp at h1 <;> simp [h1]
          have hpre' : ∀ a ∈ ({ out with
              consec := c',
              attempts := out.attempts ++ [⟨i, d.mtime, out.consec, .failed code, c'⟩],
              failures := out.failures + 1 } : RunOutcome).attempts,
              a.idx < i + 1 ∧ ¬ isRLHalt a := by
            intro a ha
            rcases List.mem_append.mp ha with h1 | h1
            · exact ⟨Nat.lt_succ_of_lt (hpre a h1).1, (hpre a h1).2⟩
            · rcases List.mem_singleton.mp h1 with rfl
              exact ⟨Nat.lt_succ_self i, hnothalt⟩
          have hrec := ih (i + 1) _ hpre' hskip
          constructor
          · intro a ha
            have := hrec.1 a ha
            simp only [List.length_cons]
            omega
          · intro a ha hh
            have h2 := hrec.2 a ha hh
            refine ⟨h2.1, ?_⟩
            rw [h2.2]
            simp only [List.length_cons]
            omega

/-- C2 (amended).  In the adaptive orchestrator, whenever an upload returns
a failure carrying a rate-limit/quota error code (21 or 34) while the
consecutive-rate-limit counter — incremented once per rate-limited attempt
and reset to zero by any successful upload — has reached 3, the loop breaks:
that descriptor is the last one attempted and every remaining queued
descriptor is counted as skipped; and any successful upload resets the
counter to zero. -/
theorem uploadOrchestrator_halt_spec (descs : List Descriptor) :
    (∀ a ∈ (runAdaptive descs).attempts, isRLHalt a →
      (∀ b ∈ (runAdaptive descs).attempts, b.idx ≤ a.idx) ∧
      (runAdaptive descs).skipped = descs.length - (a.idx + 1)) ∧
    (∀ (consec : Nat) (script : Nat → AttemptOutcome) (tid : String) (c' : Nat),
      uploadMagnetLink consec script = (.ok tid, c') → c' = 0) := by
  constructor
  · intro a ha hh
    have := (runGo_halt_spec descs 0
      { consec := 0, successes := 0, failures := 0, skipped := 0, attempts := [] }
      (by intro a ha; simp at ha) rfl).2 a ha hh
    simpa using this
  · intro consec script tid c' h
    exact uploadGo_ok_consec script _ _ _ _ _ h

/-- Attempt script that rate-limits once and then fails with an unrelated
error code (the upload then returns that final non-rate-limit code). -/
def ceScriptA : Nat → AttemptOutcome :=
  fun a => if a = 0 then .netError else .apiError (some 34)

/-- Attempt script whose first attempt rate-limits and whose second fails
with an unrelated error code. -/
def ceScriptB : Nat → AttemptOutcome :=
  fun a => if a = 0 then .apiError (some 34) else .apiError (some 5)

/-- Concrete queue refuting C2 as stated: descriptor 0 sees two code-34
errors, descriptor 1 immediately sees a third — three consecutive
rate-limit errors with no other outcome between them — yet because
descriptor 1's final error code is not a rate-limit code, descriptor 2 is
still attempted. -/
def ceDescs : List Descriptor :=
  [⟨9, some ceScriptA⟩, ⟨8, some ceScriptB⟩, ⟨7, some (fun _ => .created "t")⟩]

/-- C2 counterexample.  The claim as stated — once 3 consecutive
rate-limit/quota errors (codes 21/34) have occurred, no remaining queued
descriptor is attempted — formalized as "every attempted descriptor sees a
consecutive-rate-limit counter below 3", is false on `ceDescs`: descriptor 2
is attempted with the counter standing at 3 (after the three back-to-back
code-34 errors of descriptors 0 and 1). -/
theorem uploadOrchestrator_claim_counterexample :
    ((runAdaptive ceDescs).attempts.map (fun a => (a.idx, a.consecBefore)) =
      [(0, 0), (1, 2), (2, 3)]) ∧
    ¬ (∀ a ∈ (runAdaptive ceDescs).attempts, a.consecBefore < 3) := by
  have htrace : (runAdaptive ceDescs).attempts.map (fun a => (a.idx, a.consecBefore)) =
      [(0, 0), (1, 2), (2, 3)] := by rfl
  refine ⟨htrace, ?_⟩
  intro hall
  have hmem : (2, 3) ∈ (runAdaptive ceDescs).attempts.map (fun a => (a.idx, a.consecBefore)) := by
    rw [htrace]
    simp
  rcases List.mem_map.mp hmem with ⟨a, ha, heq⟩
  have := hall a ha
  rw [show a.consecBefore = 3 from congrArg Prod.snd heq] at this
  omega

/-- C2 witness: a queue whose first descriptor exhausts its three attempts
on code-34 errors; the theorem yields that it is the last attempted and
both remaining descriptors are counted skipped. -/
theorem uploadOrchestrator_halt_spec_witness :
    (∀ b ∈ (runAdaptive [⟨9, some (fun _ => .apiError (some 34))⟩,
        ⟨8, some (fun _ => .created "x")⟩, ⟨7, none⟩]).attempts, b.idx ≤ 0) ∧
    (runAdaptive [⟨9, some (fun _ => .apiError (some 34))⟩,
        ⟨8, some (fun _ => .created "x")⟩, ⟨7, none⟩]).skipped = 2 := by
  have h := (uploadOrchestrator_halt_spec
    [⟨9, some (fun _ => .apiError (some 34))⟩,
     ⟨8, some (fun _ => .created "x")⟩, ⟨7, none⟩]).1
    { idx := 0, mtime := 9, consecBefore := 0, result := .failed (some 34), consecAfter := 3 }
    (by rw [show (runAdaptive [⟨9, some (fun _ => .apiError (some 34))⟩,
        ⟨8, some (fun _ => .created "x")⟩, ⟨7, none⟩]).attempts =
        [{ idx := 0, mtime := 9, consecBefore := 0, result := .failed (some 34),
           consecAfter := 3 }] from rfl]; simp)
    ⟨Or.inr rfl, by decide⟩
  exact ⟨h.1, h.2⟩

/-! ### Ordering theorems (C7) -/

theorem runGo_attempts_mtimes (ds : List Descriptor) :
    ∀ (i : Nat) (out : RunOutcome),
    ∃ suffix, (runGo ds i out).attempts.map AttemptRecord.mtime =
        out.attempts.map AttemptRecord.mtime ++ suffix ∧
      suffix.Sublist (ds.map Descriptor.mtime) := by
  induction ds with
  | nil =>
    intro i out
    exact ⟨[], by simp [runGo], by simp⟩
  | cons d rest ih =>
    intro i out
    cases hload : d.load with
    | none =>
      rw [runGo_cons_none d rest i out hload]
      obtain ⟨suffix, hsfx, hsub⟩ := ih (i + 1) { out with failures := out.failures + 1 }
      exact ⟨suffix, hsfx, by simpa using hsub.cons d.mtime⟩
    | some script =>
      rcases hup : uploadMagnetLink out.consec script with ⟨res, c'⟩
      cases res with
      | ok tid =>
        rw [runGo_cons_ok d rest i out script tid c' hload hup]
        obtain ⟨suffix, hsfx, hsub⟩ := ih (i + 1)
          { out with
            consec := c',
            attempts := out.attempts ++ [⟨i, d.mtime, out.consec, .ok tid, c'⟩],
            successes := out.successes + 1 }
        refine ⟨d.mtime :: suffix, ?_, ?_⟩
        · rw [hsfx]
          simp
        · simpa using hsub.cons₂ d.mtime
      | failed code =>
        rw [runGo_cons_failed d rest i out script code c' hload hup]
        by_cases hcond : (code = some 21 ∨ code = some 34) ∧ 3 ≤ c'
        · rw [if_pos hcond]
          refine ⟨[d.mtime], ?_, ?_⟩
          · simp
          · simpa using (List.nil_sublist (rest.map Descriptor.mtime)).cons₂ d.mtime
        · rw [if_neg hcond]
          obtain ⟨suffix, hsfx, hsub⟩ := ih (i + 1)
            { out with
              consec := c',
              attempts := out.attempts ++ [⟨i, d.mtime, out.consec, .failed code, c'⟩],
              failures := out.failures + 1 }
          refine ⟨d.mtime :: suffix, ?_, ?_⟩
          · rw [hsfx]
            simp
          · simpa using hsub.cons₂ d.mtime

/-- C7.  The orchestrator's queue (`sort` by mtime, newest first, then
truncation to the per-run cap) is ordered so that any earlier descriptor has
a modification time no older than any later one; the attempts a run makes
follow the queue order (their mtimes form a sublist of the queue's mtimes,
retries happening inside a single descriptor's upload); hence the attempted
descriptors of a run over such a queue are pairwise newest-first. -/
theorem uploadOrder_spec :
    (∀ (files : List Descriptor) (cap : Nat),
      (uploadOrder files cap).Pairwise (fun a b => b.mtime ≤ a.mtime)) ∧
    (∀ descs : List Descriptor,
      ((runAdaptive descs).attempts.map AttemptRecord.mtime).Sublist
        (descs.map Descriptor.mtime)) ∧
    (∀ (files : List Descriptor) (cap : Nat),
      ((runAdaptive (uploadOrder files cap)).attempts.map AttemptRecord.mtime).Pairwise
        (fun a b => b ≤ a)) := by
  have hsorted : ∀ (files : List Descriptor) (cap : Nat),
      (uploadOrder files cap).Pairwise (fun a b => b.mtime ≤ a.mtime) := by
    intro files cap
    have hms : (files.mergeSort mtimeGe).Pairwise (fun a b => mtimeGe a b = true) :=
      List.sorted_mergeSort
        (fun a b c hab hbc => by
          simp only [mtimeGe, decide_eq_true_eq] at hab hbc ⊢
          omega)
        (fun a b => by
          simp only [mtimeGe, Bool.or_eq_true, decide_eq_true_eq]
          omega)
        files
    have hms' : (files.mergeSort mtimeGe).Pairwise (fun a b => b.mtime ≤ a.mtime) :=
      hms.imp (fun h => by simpa [mtimeGe] using h)
    unfold uploadOrder
    split
    · exact hms'.sublist (List.take_sublist _ _)
    · exact hms'
  have hsub : ∀ descs : List Descriptor,
      ((runAdaptive descs).attempts.map AttemptRecord.mtime).Sublist
        (descs.map Descriptor.mtime) := by
    intro descs
    obtain ⟨Δ, hΔ, hs⟩ := runGo_attempts_mtimes descs 0
      { consec := 0, successes := 0, failures := 0, skipped := 0, attempts := [] }
    unfold runAdaptive
    rw [hΔ]
    simpa using hs
  refine ⟨hsorted, hsub, ?_⟩
  intro files cap
  have h1 := hsorted files cap
  have h2 : ((uploadOrder files cap).map Descriptor.mtime).Pairwise (fun a b => b ≤ a) :=
    (List.pairwise_map).mpr h1
  exact List.Pairwise.sublist (hsub (uploadOrder files cap)) h2

/-! ### Cache-aware uploader theorems (C10) -/

theorem variantContrib_ne_none (p : String × VariantVal) :
    variantContrib p ≠ none ↔
      ∃ files, p.2 = VariantVal.dictV files ∧ ∃ f ∈ files, isVideoFile f = true := by
  obtain ⟨vid, vv⟩ := p
  cases vv with
  | otherV => simp [variantContrib]
  | dictV files =>
    simp only [variantContrib]
    by_cases he : files.isEmpty
    · rw [if_pos he]
      have hnil : files = [] := List.isEmpty_iff.mp he
      subst hnil
      simp
    · rw [if_neg he]
      by_cases hv : ((files.filter isVideoFile).map (fun f => (f.filename, f.filesize))).isEmpty
      · rw [if_pos hv]
        refine iff_of_false (by simp) ?_
        rintro ⟨files', heq, f, hf, hvid⟩
        injection heq with heq'
        subst heq'
        have hfe : files.filter isVideoFile = [] := by
          have := List.isEmpty_iff.mp hv
          simpa using this
        rw [List.filter_eq_nil_iff] at hfe
        exact hfe f hf hvid
      · rw [if_neg hv]
        refine iff_of_true (by simp) ?_
        refine ⟨files, rfl, ?_⟩
        have hfil : files.filter isVideoFile ≠ [] := by
          intro hnil
          apply hv
          simp [hnil]
        rcases List.exists_mem_of_ne_nil _ hfil with ⟨f, hf⟩
        exact ⟨f, (List.mem_filter.mp hf).1, (List.mem_filter.mp hf).2⟩

theorem isVideoFile_iff (f : FileEntry) :
    isVideoFile f = true ↔
      ∃ ext ∈ videoExtensions, pyEndsWith (pyToLower (f.filename.getD "")) ext = true := by
  simp [isVideoFile, List.any_eq_true]

theorem isTorrentCached_fst_iff (torrentHash : String) (cd : CacheData) :
    (isTorrentCached torrentHash cd).1 = true ↔
      ∃ ti, lookupCD cd torrentHash = some ti ∧
        ∃ p ∈ ti, ∃ files, p.2 = VariantVal.dictV files ∧
          ∃ f ∈ files, ∃ ext ∈ videoExtensions,
            pyEndsWith (pyToLower (f.filename.getD "")) ext = true := by
  cases hlk : lookupCD cd torrentHash with
  | none => simp [isTorrentCached, hlk]
  | some ti =>
    simp only [isTorrentCached, hlk, decide_eq_true_eq, Option.some.injEq]
    constructor
    · intro h
      refine ⟨ti, rfl, ?_⟩
      have hne : variantsOf ti ≠ [] := List.length_pos.mp h
      unfold variantsOf at hne
      rw [ne_eq, List.filterMap_eq_nil_iff] at hne
      push_neg at hne
      rcases hne with ⟨p, hp, hpc⟩
      rcases (variantContrib_ne_none p).mp hpc with ⟨files, hfiles, f, hf, hvid⟩
      exact ⟨p, hp, files, hfiles, f, hf, (isVideoFile_iff f).mp hvid⟩
    · rintro ⟨ti', rfl, p, hp, files, hfiles, f, hf, hext⟩
      have hpc : variantContrib p ≠ none :=
        (variantContrib_ne_none p).mpr ⟨files, hfiles, f, hf, (isVideoFile_iff f).mpr hext⟩
      have hne : variantsOf ti ≠ [] := by
        unfold variantsOf
        rw [ne_eq, List.filterMap_eq_nil_iff]
        push_neg
        exact ⟨p, hp, hpc⟩
      exact List.length_pos.mpr hne

theorem isTorrentCached_false_variants (torrentHash : String) (cd : CacheData)
    (h : (isTorrentCached torrentHash cd).1 = false) :
    (isTorrentCached torrentHash cd).2 = [] := by
  cases hlk : lookupCD cd torrentHash with
  | none => simp [isTorrentCached, hlk]
  | some ti =>
    simp only [isTorrentCached, hlk] at h ⊢
    simp only [decide_eq_false_iff_not, Nat.not_lt, Nat.le_zero,
      List.length_eq_zero] at h
    exact h

theorem checkBatches_cached_mem (bs : List (List CItem)) (oracle : Nat → CacheData) :
    ∀ (k : Nat) (p : CItem × List CachedVariant), p ∈ (checkBatches bs oracle k).1 →
      ∃ j, (isTorrentCached p.1.hash (oracle j)).1 = true ∧
        p.2 = (isTorrentCached p.1.hash (oracle j)).2 := by
  induction bs with
  | nil =>
    intro k p hp
    simp [checkBatches] at hp
  | cons b rest ih =>
    intro k p hp
    simp only [checkBatches] at hp
    rcases List.mem_append.mp hp with h1 | h1
    · rcases List.mem_map.mp h1 with ⟨it, hit, rfl⟩
      exact ⟨k, (List.mem_filter.mp hit).2, rfl⟩
    · exact ih (k + 1) p h1

theorem checkBatches_uncached_mem (bs : List (List CItem)) (oracle : Nat → CacheData) :
    ∀ (k : Nat) (it : CItem), it ∈ (checkBatches bs oracle k).2 →
      ∃ j, (isTorrentCached it.hash (oracle j)).1 = false := by
  induction bs with
  | nil =>
    intro k it hit
    simp [checkBatches] at hit
  | cons b rest ih =>
    intro k it hit
    simp only [checkBatches] at hit
    rcases List.mem_append.mp hit with h1 | h1
    · refine ⟨k, ?_⟩
      have := (List.mem_filter.mp h1).2
      simpa using this
    · exact ih (k + 1) it h1

/-- C10.  `is_torrent_cached` reports a hash cached exactly when the
instant-availability data holds that hash with at least one dict-valued
variant whose file list contains a filename whose lowercase form ends in one
of the video extensions; when it reports not cached the variant list is
empty; and in the cached uploader's `main`, every item routed to the cached
list (the only items uploaded) was reported cached by its batch's check,
every item routed to the uncached list was reported not cached, and only
reported-cached items are ever uploaded. -/
theorem isTorrentCached_spec :
    (∀ (torrentHash : String) (cd : CacheData),
      ((isTorrentCached torrentHash cd).1 = true ↔
        ∃ ti, lookupCD cd torrentHash = some ti ∧
          ∃ p ∈ ti, ∃ files, p.2 = VariantVal.dictV files ∧
            ∃ f ∈ files, ∃ ext ∈ videoExtensions,
              pyEndsWith (pyToLower (f.filename.getD "")) ext = true)) ∧
    (∀ (torrentHash : String) (cd : CacheData),
      (isTorrentCached torrentHash cd).1 = false →
        (isTorrentCached torrentHash cd).2 = []) ∧
    (∀ (items : List CItem) (oracle : Nat → CacheData) (p : CItem × List CachedVariant),
      p ∈ (cachedCheckRun items oracle).1 →
      ∃ j, (isTorrentCached p.1.hash (oracle j)).1 = true ∧
        p.2 = (isTorrentCached p.1.hash (oracle j)).2) ∧
    (∀ (items : List CItem) (oracle : Nat → CacheData) (it : CItem),
      it ∈ (cachedCheckRun items oracle).2 →
      ∃ j, (isTorrentCached it.hash (oracle j)).1 = false) ∧
    (∀ (items : List CItem) (oracle : Nat → CacheData) (it : CItem),
      it ∈ cachedUploadsAttempted items oracle →
      ∃ j, (isTorrentCached it.hash (oracle j)).1 = true) := by
  refine ⟨isTorrentCached_fst_iff, isTorrentCached_false_variants, ?_, ?_, ?_⟩
  · intro items oracle p hp
    exact checkBatches_cached_mem (chunksOf items) oracle 0 p hp
  · intro items oracle it hit
    exact checkBatches_uncached_mem (chunksOf items) oracle 0 it hit
  · intro items oracle it hit
    rcases List.mem_map.mp hit with ⟨p, hp, rfl⟩
    rcases checkBatches_cached_mem (chunksOf items) oracle 0 p hp with ⟨j, hj, _⟩
    exact ⟨j, hj⟩

/-- C10 witness: a concrete run with one cached item (a variant holding an
`.mkv` file) and one absent hash; the theorem yields that the first is
reported cached and uploaded and the second reported not cached and never
uploaded. -/
theorem isTorrentCached_spec_witness :
    (∃ j, (isTorrentCached (CItem.mk "h2" "b").hash
      ((fun _ : Nat => [("h2", [("v1", VariantVal.dictV [⟨some "m.mkv", 100⟩])])]) j)).1 = true) ∧
    (∃ j, (isTorrentCached (CItem.mk "h1" "a").hash
      ((fun _ : Nat => [("h2", [("v1", VariantVal.dictV [⟨some "m.mkv", 100⟩])])]) j)).1 = false) := by
  constructor
  · exact isTorrentCached_spec.2.2.2.2 [⟨"h2", "b"⟩, ⟨"h1", "a"⟩]
      (fun _ => [("h2", [("v1", VariantVal.dictV [⟨some "m.mkv", 100⟩])])])
      ⟨"h2", "b"⟩ (by decide)
  · exact isTorrentCached_spec.2.2.2.1 [⟨"h2", "b"⟩, ⟨"h1", "a"⟩]
      (fun _ => [("h2", [("v1", VariantVal.dictV [⟨some "m.mkv", 100⟩])])])
      ⟨"h1", "a"⟩ (by decide)

end YtsModel
